import Mathlib

/-!
Shallow embedding of `src/getoptc++.hpp` (SudoFoundry/GetOptCpp), the
instantiation `GetOpt = __impl_GetOpt<int, char, double, std::string>`.

Conventions of the embedding:
* C++ strings are Lean `String`; character-level operations go through
  `String.toList`.
* The raw `char**` argument vector is modelled as a list of indices
  (`List Nat`) into a string heap (`List String`), so that pointer
  aliasing is visible: copying the pointer array copies indices, and a
  `strcpy` through a copied pointer mutates the shared heap cell.
* `std::map` objects are sorted association lists; `mapInsert` mirrors
  `std::map::insert`, which keeps the existing entry when the key is
  already present.
* Machine integers: `_argc` and loop index are `Nat` (always nonnegative
  in every reachable source state); the stored `int` values are `Int`.
  `std::string::size_type` arithmetic on `npos` is modelled at its use
  site (`npos + 1` wraps to `0` in the AS_IS boolean branch).
* Fallible operations return `Option`; out-of-bounds reads of the raw
  argument vector (undefined behaviour in the C++) surface as the
  distinguished error `LErr.outOfRange`, as does `std::map::at` on a
  missing key (`std::out_of_range`).
* `std::stod` for the FLOAT flavour is abstracted: the float cells store
  the quote-stripped source text that would be passed to `std::stod`.
  No claim depends on the numeric value of a float cell, only on whether
  it is written.
* The parse loop can be made to run forever by adversarial registrations,
  so the loop takes explicit fuel; exhaustion is the model-level error
  `LErr.fuelOut` (not a behaviour of the C++).
-/

set_option maxRecDepth 4000

namespace GetOptCpp

/-- Byte-wise lexicographic "less than" on character lists, mirroring
`std::map<std::string, _>`'s default comparator (`char_traits<char>`
compares as unsigned char; `Char.toNat` agrees on the ASCII range used
for flags). -/
def clt : List Char → List Char → Bool
  | [], [] => false
  | [], _ :: _ => true
  | _ :: _, [] => false
  | a :: as, b :: bs =>
    if a.toNat < b.toNat then true
    else if b.toNat < a.toNat then false
    else clt as bs

/-- The double-quote character, `'"'` in the C++ source. -/
def dquote : Char := Char.ofNat 34

/-- The single-quote character in `__internal::stripQuotes`. -/
def squote : Char := Char.ofNat 39

/-- Models `__internal::stripQuotes`: if the first and last characters
are a matching pair of double quotes or of single quotes, drop them,
else return the string unchanged (`s.find(q) == 0` means the first
character is `q`; `s.find_last_of(q) == s.size()-1` means the last
character is `q`). -/
def stripQuotes (s : String) : String :=
  let l := s.toList
  if (l.head? == some dquote && l.getLast? == some dquote) ||
     (l.head? == some squote && l.getLast? == some squote) then
    String.mk ((l.drop 1).dropLast)
  else s

/-- Models `flag.substr(0, flag.find(c))` for `c := '='`: the part of the
token before the first equals sign (the whole token when there is none). -/
def takeBeforeEq (s : String) : String :=
  String.mk (s.toList.takeWhile (fun c => c != '='))

/-- Models `flag.substr(index + 1)` where `index = flag.find('=')`: the
value suffix after the first equals sign. -/
def afterEq (s : String) : String :=
  String.mk ((s.toList.dropWhile (fun c => c != '=')).drop 1)

/-- Models `flag.find('=') != std::string::npos`. -/
def hasEq (s : String) : Bool :=
  s.toList.contains '='

/-- Models `string_t(flag, 0, 2)`: the first two characters (or fewer,
when the token is shorter). -/
def firstTwo (s : String) : String :=
  String.mk (s.toList.take 2)

/-- Models `s.substr(1, s.size() - 2)` in the cluster branch: everything
between the leading marker character and the final character. -/
def interiorChars (s : String) : List Char :=
  (s.toList.drop 1).dropLast

/-- Models `flag.find("--") == 0`: the token starts with the two-character
long marker. -/
def startsWithDD (s : String) : Bool :=
  s.toList.take 2 == ['-', '-']

/-- Models `s[0]` on a `std::string`: `operator[]` at position `size()`
returns the null character, so the empty string yields `'\0'`. -/
def strAt0 (s : String) : Char :=
  match s.toList with
  | [] => Char.ofNat 0
  | c :: _ => c

/-- Models `s.back()` (only ever reached on nonempty tokens; the null
character stands in for the undefined empty case). -/
def strBack (s : String) : Char :=
  (s.toList.getLast?).getD (Char.ofNat 0)

/-- Splits on commas the way the `SETUP_FLAG` getline loop does: the body
inserts every piece read before eof and the final piece is inserted once
more after the loop; the net effect is exactly comma-splitting, with a
trailing comma contributing an empty alias. -/
def splitOnComma : List Char → List (List Char)
  | [] => [[]]
  | c :: rest =>
    let r := splitOnComma rest
    if c = ',' then [] :: r
    else
      match r with
      | [] => [[c]]
      | h :: t => (c :: h) :: t

/-- Alias list of one registration call (see `splitOnComma`). -/
def splitFlags (s : String) : List String :=
  (splitOnComma s.toList).map String.mk

/-- Whitespace skipped by `std::stoi` in the "C" locale. -/
def isSpaceC (c : Char) : Bool :=
  c.toNat == 32 || c.toNat == 9 || c.toNat == 10 ||
  c.toNat == 11 || c.toNat == 12 || c.toNat == 13

/-- Decimal value of a digit run. -/
def natOfDigits (l : List Char) : Nat :=
  l.foldl (fun n c => n * 10 + (c.toNat - 48)) 0

/-- Models `std::stoi`: skip leading whitespace, optional sign, then a
nonempty run of digits (trailing text ignored); `none` models the
`std::invalid_argument` exception. Out-of-range values are not modelled
(no claim exercises them). -/
def stoi (s : String) : Option Int :=
  let l := s.toList.dropWhile isSpaceC
  match l with
  | [] => none
  | c :: rest =>
    if c = '-' then
      match rest.takeWhile Char.isDigit with
      | [] => none
      | ds => some (-(natOfDigits ds : Int))
    else if c = '+' then
      match rest.takeWhile Char.isDigit with
      | [] => none
      | ds => some ((natOfDigits ds : Int))
    else
      match l.takeWhile Char.isDigit with
      | [] => none
      | ds => some ((natOfDigits ds : Int))

/-- The `TYPE` enum of the main lookup table. -/
inductive TYPE
  | BOOL
  | FLOAT
  | INT
  | STR
deriving DecidableEq

/-- The `BEHAVIOUR` enum selecting the parsing dialect. -/
inductive BEHAVIOUR
  | STRICT
  | AS_IS
deriving DecidableEq

/-- Models `std::map::find`: the value stored under an exactly equal key. -/
def mapFind {α : Type} (k : String) : List (String × α) → Option α
  | [] => none
  | (k2, v) :: rest => if k = k2 then some v else mapFind k rest

/-- Models `std::map::insert` on a key-sorted association list: the new
pair is placed at its ordered position, and when an equivalent key is
already present the existing element is KEPT (insert does not overwrite). -/
def mapInsert {α : Type} (k : String) (v : α) : List (String × α) → List (String × α)
  | [] => [(k, v)]
  | (k1, v1) :: rest =>
    if clt k.toList k1.toList then (k, v) :: (k1, v1) :: rest
    else if clt k1.toList k.toList then (k1, v1) :: mapInsert k v rest
    else (k1, v1) :: rest

/-- The keys are strictly increasing, the invariant `std::map` maintains
and every registration-built lookup table satisfies. -/
def sortedKeys {α : Type} : List (String × α) → Bool
  | [] => true
  | [_] => true
  | (k1, _) :: (k2, v2) :: rest =>
    clt k1.toList k2.toList && sortedKeys ((k2, v2) :: rest)

/-- The five lookup tables of `__impl_GetOpt` (cell values are indices
into the typed cell stores of `GetOptState`, standing in for the raw
pointers the C++ stores). -/
structure Registry where
  main_lookup : List (String × TYPE)
  bool_lookup : List (String × Nat)
  float_lookup : List (String × Nat)
  int_lookup : List (String × Nat)
  str_lookup : List (String × Nat)

/-- The whole parser object. `heap` is the string store addressed by
`Nat` "pointers"; `origArgv` is `_argv` (`none` models the null pointer
before `initialize`); the four cell lists hold the storage cells returned
by the registration calls, addressed by index. -/
structure GetOptState where
  heap : List String
  origArgv : Option (List Nat)
  from_sys : Bool
  reg : Registry
  boolCells : List Bool
  floatCells : List String
  intCells : List Int
  strCells : List String
  options : List String

/-- A fresh `__impl_GetOpt` object: no argv, empty lookups, no cells. -/
def initState : GetOptState :=
  { heap := [], origArgv := none, from_sys := true,
    reg := ⟨[], [], [], [], []⟩,
    boolCells := [], floatCells := [], intCells := [], strCells := [],
    options := [] }

/-- Models `initialize(argc, argv, isFromSystem)`: the token strings are
placed in the heap and `_argv` is pointed at them; `_argc` is the length
of the vector. -/
def GetOptState.initArgv (g : GetOptState) (argv : List String) (isFromSystem : Bool) : GetOptState :=
  let base := g.heap.length
  { g with heap := g.heap ++ argv,
           origArgv := some ((List.range argv.length).map (fun j => base + j)),
           from_sys := isFromSystem }

/-- Models `flagBoolean` (the `SETUP_FLAG(bool, bool, BOOL)` expansion):
allocate one cell holding the default, and insert every comma-separated
alias into `main_lookup` and `bool_lookup`. Returns the cell index (the
pointer the C++ returns). -/
def flagBoolean (g : GetOptState) (flagName : String) (default_value : Bool) : GetOptState × Nat :=
  let id := g.boolCells.length
  let al := splitFlags flagName
  ({ g with
      boolCells := g.boolCells ++ [default_value],
      reg := { g.reg with
        main_lookup := al.foldl (fun m a => mapInsert a TYPE.BOOL m) g.reg.main_lookup,
        bool_lookup := al.foldl (fun m a => mapInsert a id m) g.reg.bool_lookup } }, id)

/-- Models `flagFloating` (`SETUP_FLAG(floating_t, float, FLOAT)`); the
cell stores source text, see the float abstraction note in the header. -/
def flagFloating (g : GetOptState) (flagName : String) (default_text : String) : GetOptState × Nat :=
  let id := g.floatCells.length
  let al := splitFlags flagName
  ({ g with
      floatCells := g.floatCells ++ [default_text],
      reg := { g.reg with
        main_lookup := al.foldl (fun m a => mapInsert a TYPE.FLOAT m) g.reg.main_lookup,
        float_lookup := al.foldl (fun m a => mapInsert a id m) g.reg.float_lookup } }, id)

/-- Models `flagInt` (`SETUP_FLAG(integer_t, int, INT)`). -/
def flagInt (g : GetOptState) (flagName : String) (default_value : Int) : GetOptState × Nat :=
  let id := g.intCells.length
  let al := splitFlags flagName
  ({ g with
      intCells := g.intCells ++ [default_value],
      reg := { g.reg with
        main_lookup := al.foldl (fun m a => mapInsert a TYPE.INT m) g.reg.main_lookup,
        int_lookup := al.foldl (fun m a => mapInsert a id m) g.reg.int_lookup } }, id)

/-- Models `flagString` (`SETUP_FLAG(string_t, str, STR)`). -/
def flagString (g : GetOptState) (flagName : String) (default_value : String) : GetOptState × Nat :=
  let id := g.strCells.length
  let al := splitFlags flagName
  ({ g with
      strCells := g.strCells ++ [default_value],
      reg := { g.reg with
        main_lookup := al.foldl (fun m a => mapInsert a TYPE.STR m) g.reg.main_lookup,
        str_lookup := al.foldl (fun m a => mapInsert a id m) g.reg.str_lookup } }, id)

/-- Models `getOptions()`. -/
def getOptions (g : GetOptState) : List String := g.options

/-- Errors that can escape the internal read loop: an out-of-bounds raw
read or a `std::map::at` miss (`outOfRange`), a numeric conversion
failure (`convFail`), or model fuel exhaustion (`fuelOut`, standing for
a non-terminating C++ execution). There is deliberately no `no_argv`
case: that exception is thrown only before the loop starts. -/
inductive LErr
  | outOfRange
  | convFail
  | fuelOut
deriving DecidableEq

/-- Errors of a whole `readArgs` call. -/
inductive PErr
  | noArgv
  | outOfRange
  | convFail
  | fuelOut
deriving DecidableEq

/-- Embeds loop errors into call errors. -/
def LErr.toPErr : LErr → PErr
  | .outOfRange => .outOfRange
  | .convFail => .convFail
  | .fuelOut => .fuelOut

/-- The mutable state of one pass of `__internal_readArgs_*`: the current
(possibly cluster-expanded) pointer vector and loop index, plus the parts
of the object the loop mutates (`_argc` is `argv.length`). -/
structure LoopSt where
  argv : List Nat
  i : Nat
  heap : List String
  boolCells : List Bool
  floatCells : List String
  intCells : List Int
  strCells : List String
  options : List String
  invalid : List String

/-- One outcome of examining the token at the current index. -/
inductive StepRes
  | next (st : LoopSt)
  | done (st : LoopSt)
  | fail (e : LErr) (st : LoopSt)

/-- Reads `string_t(_argv[n])`: dereference the pointer vector, then the
string buffer it points to. -/
def readTok (st : LoopSt) (n : Nat) : Option String :=
  (st.argv.get? n).bind (fun p => st.heap.get? p)

/-- Models the combination-flag branch: `newFlags` copies the pointer
vector and gains one fresh two-character buffer `-x` per interior
character appended after the old end, `strcpy(newFlags[i], "-" + last)`
rewrites IN PLACE the buffer shared with the original vector, and
`_argc += s.size()`. The loop index is not advanced. -/
def clusterExpand (st : LoopSt) (flag : String) : LoopSt :=
  let lastFlag := strBack flag
  let inter := interiorChars flag
  let base := st.heap.length
  let heap1 := st.heap ++ inter.map (fun c => String.mk ['-', c])
  let p := (st.argv.get? st.i).getD 0
  let heap2 := heap1.set p (String.mk ['-', lastFlag])
  let argv2 := st.argv ++ (List.range inter.length).map (fun j => base + j)
  { st with heap := heap2, argv := argv2 }

/-- The `it == main_lookup.end()` branch, identical in the STRICT and
AS_IS loops: compare the token's first character against the first
character of `main_lookup.begin()->first` (the LEAST key, not every
key); on a match, an unknown two-character head means an invalid flag,
otherwise the token is a cluster to expand; on a mismatch the token is
an option. Dereferencing `begin()` of an empty map is undefined
behaviour, surfaced as `outOfRange`. -/
def notFoundStep (R : Registry) (st : LoopSt) (flag : String) : StepRes :=
  match R.main_lookup.head? with
  | none => .fail .outOfRange st
  | some (k0, _) =>
    if strAt0 k0 = strAt0 flag then
      if mapFind (firstTwo flag) R.main_lookup = none then
        .next { st with invalid := st.invalid ++ [flag], i := st.i + 1 }
      else
        .next (clusterExpand st flag)
    else
      .next { st with options := st.options ++ [flag], i := st.i + 1 }

/-- The value stored by a boolean long-form token with an equals sign:
`false` iff the quote-stripped suffix is exactly "0". -/
def boolValueOfSuffix (flag : String) : Bool :=
  if stripQuotes (afterEq flag) = "0" then false else true

/-- The shortname-boolean consumption shared by both dialects, reading
`_argv[n]` (NOT `_argv[i + 1]`: in the STRICT branch `index` is still 0
so `n = 1`; in the AS_IS branch `index` is `npos` and `npos + 1` wraps
to 0 so `n = 0`). Condition structure of the source:
`stripQuotes(argv[n]) == "0" || (*data = (stripQuotes(argv[n]) == "1" ? true : *data))`
so a "0" token leaves the cell UNCHANGED and advances by 2; a "1" token
stores true and advances by 2; any other token stores nothing, and the
branch taken depends on the CURRENT cell value: a true cell advances by
2, a false cell is set to true and advances by 1. -/
def boolShortRead (st : LoopSt) (id : Nat) (n : Nat) : StepRes :=
  match readTok st n with
  | none => .fail .outOfRange st
  | some t =>
    let ts := stripQuotes t
    if ts = "0" then .next { st with i := st.i + 2 }
    else if ts = "1" then
      .next { st with boolCells := st.boolCells.set id true, i := st.i + 2 }
    else
      match st.boolCells.get? id with
      | none => .fail .outOfRange st
      | some b =>
        if b then .next { st with i := st.i + 2 }
        else .next { st with boolCells := st.boolCells.set id true, i := st.i + 1 }

/-- Dispatch on the looked-up token for `__internal_readArgs_STRICT`,
after the token has been read (one iteration of the while loop less the
read and bound check). -/
def strictDispatch (R : Registry) (st : LoopSt) (flag : String) : StepRes :=
  let flag_only := takeBeforeEq flag
  match mapFind flag_only R.main_lookup with
  | none => notFoundStep R st flag
  | some TYPE.BOOL =>
    match mapFind flag_only R.bool_lookup with
    | none => .fail .outOfRange st
    | some id =>
      if startsWithDD flag then
        if hasEq flag then
          .next { st with boolCells := st.boolCells.set id (boolValueOfSuffix flag), i := st.i + 1 }
        else
          .next { st with boolCells := st.boolCells.set id true, i := st.i + 1 }
      else
        boolShortRead st id 1
  | some TYPE.FLOAT =>
    match mapFind flag_only R.float_lookup with
    | none => .fail .outOfRange st
    | some id =>
      if startsWithDD flag then
        if hasEq flag then
          .next { st with floatCells := st.floatCells.set id (stripQuotes (afterEq flag)), i := st.i + 1 }
        else
          .next { st with invalid := st.invalid ++ [flag], i := st.i + 1 }
      else
        if st.argv.length ≤ st.i + 1 then
          .next { st with invalid := st.invalid ++ [flag], i := st.i + 1 }
        else
          match readTok st (st.i + 1) with
          | none => .fail .outOfRange st
          | some t =>
            .next { st with floatCells := st.floatCells.set id (stripQuotes t), i := st.i + 2 }
  | some TYPE.INT =>
    match mapFind flag_only R.int_lookup with
    | none => .fail .outOfRange st
    | some id =>
      if startsWithDD flag then
        if hasEq flag then
          match stoi (stripQuotes (afterEq flag)) with
          | none => .fail .convFail st
          | some v => .next { st with intCells := st.intCells.set id v, i := st.i + 1 }
        else
          .next { st with invalid := st.invalid ++ [flag], i := st.i + 1 }
      else
        if st.argv.length ≤ st.i + 1 then
          .next { st with invalid := st.invalid ++ [flag], i := st.i + 1 }
        else
          match readTok st (st.i + 1) with
          | none => .fail .outOfRange st
          | some t =>
            match stoi (stripQuotes t) with
            | none => .fail .convFail st
            | some v => .next { st with intCells := st.intCells.set id v, i := st.i + 2 }
  | some TYPE.STR =>
    match mapFind flag_only R.str_lookup with
    | none => .fail .outOfRange st
    | some id =>
      if startsWithDD flag then
        if hasEq flag then
          .next { st with strCells := st.strCells.set id (stripQuotes (afterEq flag)), i := st.i + 1 }
        else
          .next { st with invalid := st.invalid ++ [flag], i := st.i + 1 }
      else
        if st.argv.length ≤ st.i + 1 then
          .next { st with invalid := st.invalid ++ [flag], i := st.i + 1 }
        else
          match readTok st (st.i + 1) with
          | none => .fail .outOfRange st
          | some t =>
            .next { st with strCells := st.strCells.set id (stripQuotes t), i := st.i + 2 }

/-- One iteration of the STRICT while loop: exit when `i < _argc` fails,
otherwise read `string_t(_argv[i])` and dispatch. -/
def strictStep (R : Registry) (st : LoopSt) : StepRes :=
  if st.i < st.argv.length then
    match readTok st st.i with
    | none => .fail .outOfRange st
    | some flag => strictDispatch R st flag
  else .done st

/-- Dispatch on the looked-up token for `__internal_readArgs_AS_IS`: the
not-found handling is the same code as STRICT; for every found type the
branch is chosen by the presence of an equals sign only, regardless of
marker length. -/
def asisDispatch (R : Registry) (st : LoopSt) (flag : String) : StepRes :=
  let flag_only := takeBeforeEq flag
  match mapFind flag_only R.main_lookup with
  | none => notFoundStep R st flag
  | some TYPE.BOOL =>
    match mapFind flag_only R.bool_lookup with
    | none => .fail .outOfRange st
    | some id =>
      if hasEq flag then
        .next { st with boolCells := st.boolCells.set id (boolValueOfSuffix flag), i := st.i + 1 }
      else
        boolShortRead st id 0
  | some TYPE.FLOAT =>
    match mapFind flag_only R.float_lookup with
    | none => .fail .outOfRange st
    | some id =>
      if hasEq flag then
        .next { st with floatCells := st.floatCells.set id (stripQuotes (afterEq flag)), i := st.i + 1 }
      else
        if st.argv.length ≤ st.i + 1 then
          .next { st with invalid := st.invalid ++ [flag], i := st.i + 1 }
        else
          match readTok st (st.i + 1) with
          | none => .fail .outOfRange st
          | some t =>
            .next { st with floatCells := st.floatCells.set id (stripQuotes t), i := st.i + 2 }
  | some TYPE.INT =>
    match mapFind flag_only R.int_lookup with
    | none => .fail .outOfRange st
    | some id =>
      if hasEq flag then
        match stoi (stripQuotes (afterEq flag)) with
        | none => .fail .convFail st
        | some v => .next { st with intCells := st.intCells.set id v, i := st.i + 1 }
      else
        if st.argv.length ≤ st.i + 1 then
          .next { st with invalid := st.invalid ++ [flag], i := st.i + 1 }
        else
          match readTok st (st.i + 1) with
          | none => .fail .outOfRange st
          | some t =>
            match stoi (stripQuotes t) with
            | none => .fail .convFail st
            | some v => .next { st with intCells := st.intCells.set id v, i := st.i + 2 }
  | some TYPE.STR =>
    match mapFind flag_only R.str_lookup with
    | none => .fail .outOfRange st
    | some id =>
      if hasEq flag then
        .next { st with strCells := st.strCells.set id (stripQuotes (afterEq flag)), i := st.i + 1 }
      else
        if st.argv.length ≤ st.i + 1 then
          .next { st with invalid := st.invalid ++ [flag], i := st.i + 1 }
        else
          match readTok st (st.i + 1) with
          | none => .fail .outOfRange st
          | some t =>
            .next { st with strCells := st.strCells.set id (stripQuotes t), i := st.i + 2 }

/-- One iteration of the AS_IS while loop. -/
def asisStep (R : Registry) (st : LoopSt) : StepRes :=
  if st.i < st.argv.length then
    match readTok st st.i with
    | none => .fail .outOfRange st
    | some flag => asisDispatch R st flag
  else .done st

/-- Which internal loop the `switch (behaviour)` in `readArgs` selects. -/
def stepOf : BEHAVIOUR → Registry → LoopSt → StepRes
  | .STRICT => strictStep
  | .AS_IS => asisStep

/-- Iterates a step function until the loop exits or throws. Fuel bounds
the iteration count (the C++ loop can diverge for adversarial
registries); running out is the model error `fuelOut`. A thrown loop
error carries the loop state at the throw point, since the C++ exception
propagates before any cleanup runs. -/
def runLoop (step : Registry → LoopSt → StepRes) (R : Registry) : Nat → LoopSt → Except (LErr × LoopSt) LoopSt
  | 0, st => .error (.fuelOut, st)
  | Nat.succ f, st =>
    match step R st with
    | .done st2 => .ok st2
    | .fail e st2 => .error (e, st2)
    | .next st2 => runLoop step R f st2

/-- Loop state at entry of a pass: `i = _from_sys` (1 when the vector is
system-style, else 0), fresh invalid-flags accumulator. -/
def GetOptState.mkLoopSt (g : GetOptState) (ptrs : List Nat) : LoopSt :=
  { argv := ptrs, i := if g.from_sys then 1 else 0, heap := g.heap,
    boolCells := g.boolCells, floatCells := g.floatCells,
    intCells := g.intCells, strCells := g.strCells,
    options := g.options, invalid := [] }

/-- Object state after a pass completes normally: the loop's mutations
are kept, the internal allocations are released (release itself leaves
no observable trace in the model) and `_argv` is restored to the backup
taken at entry, whether or not expansion replaced it. -/
def GetOptState.absorb (g : GetOptState) (ptrs : List Nat) (st : LoopSt) : GetOptState :=
  { g with heap := st.heap, boolCells := st.boolCells,
           floatCells := st.floatCells, intCells := st.intCells,
           strCells := st.strCells, options := st.options,
           origArgv := some ptrs }

/-- Models `readArgs(behaviour)`: throw `no_argv` when `_argv` is null,
otherwise run the dialect loop. On a loop exception the cleanup at the
end of the internal function is skipped, so `_argv` is left pointing at
the loop's current (possibly expanded) vector. -/
def readArgs (g : GetOptState) (behaviour : BEHAVIOUR) (fuel : Nat) :
    Except PErr (List String) × GetOptState :=
  match g.origArgv with
  | none => (.error .noArgv, g)
  | some ptrs =>
    match runLoop (stepOf behaviour) g.reg fuel (g.mkLoopSt ptrs) with
    | .ok st => (.ok st.invalid, g.absorb ptrs st)
    | .error (e, st) =>
      (.error e.toPErr,
       { g with heap := st.heap, boolCells := st.boolCells,
                floatCells := st.floatCells, intCells := st.intCells,
                strCells := st.strCells, options := st.options,
                origArgv := some st.argv })

/-- The argument vector as the caller sees it through the original
`char**`: each original pointer dereferenced in the current heap. This
is how in-place mutation of a caller-owned buffer becomes observable. -/
def callerView (g : GetOptState) : Option (List String) :=
  g.origArgv.map (fun ps => ps.map (fun p => (g.heap.get? p).getD ""))

/-! Basic facts about the map-comparator order and the lookup tables. -/

theorem mapFind_cons {α : Type} (k k2 : String) (v : α) (rest : List (String × α)) :
    mapFind k ((k2, v) :: rest) = if k = k2 then some v else mapFind k rest := rfl

theorem mapInsert_nil {α : Type} (k : String) (w : α) : mapInsert k w [] = [(k, w)] := rfl

theorem mapInsert_cons {α : Type} (kn k1 : String) (w v1 : α) (rest : List (String × α)) :
    mapInsert kn w ((k1, v1) :: rest) =
      if clt kn.toList k1.toList then (kn, w) :: (k1, v1) :: rest
      else if clt k1.toList kn.toList then (k1, v1) :: mapInsert kn w rest
      else (k1, v1) :: rest := rfl

theorem sortedKeys_cons_cons {α : Type} (k1 k2 : String) (v1 v2 : α) (rest : List (String × α)) :
    sortedKeys ((k1, v1) :: (k2, v2) :: rest) =
      (clt k1.toList k2.toList && sortedKeys ((k2, v2) :: rest)) := rfl

theorem sortedKeys_tail {α : Type} {p : String × α} {m : List (String × α)}
    (h : sortedKeys (p :: m) = true) : sortedKeys m = true := by
  cases m with
  | nil => rfl
  | cons q t =>
    obtain ⟨k1, v1⟩ := p
    obtain ⟨k2, v2⟩ := q
    rw [sortedKeys_cons_cons, Bool.and_eq_true] at h
    exact h.2

theorem clt_irrefl : ∀ l : List Char, clt l l = false
  | [] => rfl
  | c :: rest => by simp [clt, clt_irrefl rest]

theorem clt_trans : ∀ a b c : List Char, clt a b = true → clt b c = true → clt a c = true
  | [], [], _, h1, _ => by simp [clt] at h1
  | [], _ :: _, [], _, h2 => by simp [clt] at h2
  | [], _ :: _, _ :: _, _, _ => by simp [clt]
  | _ :: _, [], _, h1, _ => by simp [clt] at h1
  | _ :: _, _ :: _, [], _, h2 => by simp [clt] at h2
  | x :: xs, y :: ys, z :: zs, h1, h2 => by
    simp only [clt] at h1 h2 ⊢
    by_cases hxy : x.toNat < y.toNat
    · by_cases hyz : y.toNat < z.toNat
      · have hxz : x.toNat < z.toNat := Nat.lt_trans hxy hyz
        simp [hxz]
      · by_cases hzy : z.toNat < y.toNat
        · simp [hyz, hzy] at h2
        · have hxz : x.toNat < z.toNat := by omega
          simp [hxz]
    · by_cases hyx : y.toNat < x.toNat
      · simp [hxy, hyx] at h1
      · by_cases hyz : y.toNat < z.toNat
        · have hxz : x.toNat < z.toNat := by omega
          simp [hxz]
        · by_cases hzy : z.toNat < y.toNat
          · simp [hyz, hzy] at h2
          · have h1x : clt xs ys = true := by simpa [hxy, hyx] using h1
            have h2x : clt ys zs = true := by simpa [hyz, hzy] using h2
            have hxz : ¬ x.toNat < z.toNat := by omega
            have hzx : ¬ z.toNat < x.toNat := by omega
            simp [hxz, hzx, clt_trans xs ys zs h1x h2x]

theorem mapFind_none_of_lt_head {α : Type} (k : String) :
    ∀ (k1 : String) (v1 : α) (rest : List (String × α)),
      sortedKeys ((k1, v1) :: rest) = true → clt k.toList k1.toList = true →
      mapFind k ((k1, v1) :: rest) = none
  | k1, _, [], _, hlt => by
    have hne : k ≠ k1 := by
      intro he
      rw [he, clt_irrefl] at hlt
      exact Bool.noConfusion hlt
    simp [mapFind_cons, mapFind, hne]
  | k1, v1, (k2, v2) :: rest, hs, hlt => by
    have hne : k ≠ k1 := by
      intro he
      rw [he, clt_irrefl] at hlt
      exact Bool.noConfusion hlt
    rw [sortedKeys_cons_cons, Bool.and_eq_true] at hs
    have htl : mapFind k ((k2, v2) :: rest) = none :=
      mapFind_none_of_lt_head k k2 v2 rest hs.2 (clt_trans _ _ _ hlt hs.1)
    simp [mapFind_cons, hne, htl]

theorem mapFind_mapInsert {α : Type} (k kn : String) (w : α) :
    ∀ (m : List (String × α)), sortedKeys m = true → ∀ v, mapFind k m = some v →
      mapFind k (mapInsert kn w m) = some v
  | [], _, v, hf => by simp [mapFind] at hf
  | (k1, v1) :: rest, hs, v, hf => by
    rw [mapInsert_cons]
    by_cases h1 : clt kn.toList k1.toList
    · rw [if_pos h1]
      by_cases hk : k = kn
      · subst hk
        rw [mapFind_none_of_lt_head k k1 v1 rest hs h1] at hf
        cases hf
      · rw [mapFind_cons, if_neg hk]
        exact hf
    · rw [if_neg h1]
      by_cases h2 : clt k1.toList kn.toList
      · rw [if_pos h2]
        by_cases hk : k = k1
        · rw [mapFind_cons, if_pos hk]
          rw [mapFind_cons, if_pos hk] at hf
          exact hf
        · rw [mapFind_cons, if_neg hk]
          rw [mapFind_cons, if_neg hk] at hf
          exact mapFind_mapInsert k kn w rest (sortedKeys_tail hs) v hf
      · rw [if_neg h2]
        exact hf

theorem sortedKeys_cons_mapInsert {α : Type} (kn : String) (w : α) :
    ∀ (k1 : String) (v1 : α) (rest : List (String × α)),
      clt k1.toList kn.toList = true → sortedKeys ((k1, v1) :: rest) = true →
      sortedKeys ((k1, v1) :: mapInsert kn w rest) = true
  | k1, v1, [], hlt, _ => by
    rw [mapInsert_nil, sortedKeys_cons_cons, Bool.and_eq_true]
    exact ⟨hlt, rfl⟩
  | k1, v1, (k2, v2) :: t, hlt, hs => by
    rw [sortedKeys_cons_cons, Bool.and_eq_true] at hs
    rw [mapInsert_cons]
    by_cases ha : clt kn.toList k2.toList
    · rw [if_pos ha]
      rw [sortedKeys_cons_cons, Bool.and_eq_true, sortedKeys_cons_cons, Bool.and_eq_true]
      exact ⟨hlt, ha, hs.2⟩
    · rw [if_neg ha]
      by_cases hb : clt k2.toList kn.toList
      · rw [if_pos hb]
        rw [sortedKeys_cons_cons, Bool.and_eq_true]
        exact ⟨hs.1, sortedKeys_cons_mapInsert kn w k2 v2 t hb hs.2⟩
      · rw [if_neg hb]
        rw [sortedKeys_cons_cons, Bool.and_eq_true]
        exact ⟨hs.1, hs.2⟩

theorem sortedKeys_mapInsert {α : Type} (kn : String) (w : α) :
    ∀ (m : List (String × α)), sortedKeys m = true → sortedKeys (mapInsert kn w m) = true
  | [], _ => rfl
  | (k1, v1) :: rest, hs => by
    rw [mapInsert_cons]
    by_cases h1 : clt kn.toList k1.toList
    · rw [if_pos h1]
      rw [sortedKeys_cons_cons, Bool.and_eq_true]
      exact ⟨h1, hs⟩
    · rw [if_neg h1]
      by_cases h2 : clt k1.toList kn.toList
      · rw [if_pos h2]
        exact sortedKeys_cons_mapInsert kn w k1 v1 rest h2 hs
      · rw [if_neg h2]
        exact hs

theorem mapFind_foldl_mapInsert {α : Type} (k : String) (w : α) :
    ∀ (l : List String) (m : List (String × α)), sortedKeys m = true →
      ∀ v, mapFind k m = some v →
        mapFind k (l.foldl (fun acc a => mapInsert a w acc) m) = some v
  | [], _, _, _, hf => hf
  | a :: t, m, hs, v, hf => by
    simp only [List.foldl_cons]
    exact mapFind_foldl_mapInsert k w t (mapInsert a w m)
      (sortedKeys_mapInsert a w m hs) v (mapFind_mapInsert k a w m hs v hf)

/-! Unfolding helpers for one loop iteration. -/

theorem strictStep_eq_dispatch (R : Registry) (st : LoopSt) (flag : String)
    (hlt : st.i < st.argv.length) (hread : readTok st st.i = some flag) :
    strictStep R st = strictDispatch R st flag := by
  simp [strictStep, hlt, hread]

theorem asisStep_eq_dispatch (R : Registry) (st : LoopSt) (flag : String)
    (hlt : st.i < st.argv.length) (hread : readTok st st.i = some flag) :
    asisStep R st = asisDispatch R st flag := by
  simp [asisStep, hlt, hread]

/-! Concrete parser states used by the claim theorems below. -/

/-- Parser with boolean flag `-a` (default false), system-style vector
`["prog", "-a", "0"]`. -/
def gC1 : GetOptState :=
  ((flagBoolean initState "-a" false).1).initArgv ["prog", "-a", "0"] true

/-- Parser with boolean flag `-a,--append` (default false), caller-style
vector `["-a", "0"]`. -/
def gC2a : GetOptState :=
  ((flagBoolean initState "-a,--append" false).1).initArgv ["-a", "0"] false

/-- Parser with boolean flag `-a,--append` (default false), caller-style
vector `["-a=0"]`. -/
def gC2b : GetOptState :=
  ((flagBoolean initState "-a,--append" false).1).initArgv ["-a=0"] false

/-- Parser with boolean `-a` (default false) and integer `-n` (default 0),
system-style vector `["prog", "-a", "-n", "5", "file.txt"]`. -/
def gC3 : GetOptState :=
  ((flagInt (flagBoolean initState "-a" false).1 "-n" 0).1).initArgv
    ["prog", "-a", "-n", "5", "file.txt"] true

/-- Parser with booleans `-a`, `-b`, `-c` (defaults false), caller-style
vector `["-abc"]`. -/
def gC4 : GetOptState :=
  ((flagBoolean (flagBoolean (flagBoolean initState "-a" false).1 "-b" false).1
      "-c" false).1).initArgv ["-abc"] false

/-- Loop state at entry of the STRICT pass over `gC4`. -/
def stC4 : LoopSt :=
  { argv := [0], i := 0, heap := ["-abc"], boolCells := [false, false, false],
    floatCells := [], intCells := [], strCells := [], options := [], invalid := [] }

/-- Same registration and vector as `gC4`, for the frame claim. -/
def gC5 : GetOptState :=
  ((flagBoolean (flagBoolean (flagBoolean initState "-a" false).1 "-b" false).1
      "-c" false).1).initArgv ["-abc"] false

/-- Parser where `-a` is registered first as a boolean (default false) and
then again as an integer (default 7). -/
def gC6 : GetOptState :=
  (flagInt (flagBoolean initState "-a" false).1 "-a" 7).1

/-- Parser with a boolean flag registered first (only registration), used
to instantiate the no-overwrite theorem. -/
def gC6r : GetOptState := (flagBoolean initState "-a" false).1

/-- Parser with booleans `-a` and `/b` registered and caller-style vector
`["/x"]`: a token whose first character matches a registered spelling
(`/b`) but not the least registered spelling (`-a`). -/
def gC7 : GetOptState :=
  ((flagBoolean (flagBoolean initState "-a" false).1 "/b" false).1).initArgv ["/x"] false

/-- Registry with only the boolean `-a`, for the witness of the
classification theorem. -/
def regC7w : Registry := (flagBoolean initState "-a" false).1.reg

/-- Loop state holding the single unregistered token `"zzz"`. -/
def stC7w : LoopSt :=
  { argv := [0], i := 0, heap := ["zzz"], boolCells := [false],
    floatCells := [], intCells := [], strCells := [], options := [], invalid := [] }

/-- Registry with only the integer `--count`, for the witness of the
numeric long-form theorem. -/
def regC8w : Registry := (flagInt initState "--count" 0).1.reg

/-- Loop state holding the single token `"--count"`. -/
def stC8w : LoopSt :=
  { argv := [0], i := 0, heap := ["--count"], boolCells := [],
    floatCells := [], intCells := [0], strCells := [], options := [], invalid := [] }

/-- Parser with boolean flag `-a` (default false) and the caller-style
single-token vector `["-a"]`: the boolean flag is the final token. -/
def gC10 : GetOptState :=
  ((flagBoolean initState "-a" false).1).initArgv ["-a"] false

/-! Claim theorems. -/

/-- Claim C1 (code divergence). The claim says a STRICT short-form boolean
flag followed by "0" stores false and advances by two tokens. The code
instead reads `_argv[index + 1]` with `index` still 0 (so `_argv[1]`, not
`_argv[i + 1]`), and on a "0" value the short-circuit `||` skips the
store. Concretely: flag `-a` (default false), system vector
`["prog", "-a", "0"]`: the parse succeeds with no invalid flags, the
boolean ends TRUE, and the unconsumed "0" lands in the options list. -/
theorem C1_code_eval :
    (readArgs gC1 .STRICT 10).1 = .ok [] ∧
    (readArgs gC1 .STRICT 10).2.boolCells = [true] ∧
    getOptions (readArgs gC1 .STRICT 10).2 = ["0"] :=
  ⟨rfl, rfl, rfl⟩

/-- Claim C2 (code divergence). The claim says the four AS_IS boolean
argument forms are equivalent. With flag `-a,--append` (default false),
`["-a", "0"]` leaves the boolean TRUE (the no-equals branch reads
`_argv[npos + 1]`, which wraps to `_argv[0]`, i.e. the flag itself),
while `["-a=0"]` leaves it FALSE, so the forms are not equivalent. -/
theorem C2_code_eval :
    (readArgs gC2a .AS_IS 10).2.boolCells = [true] ∧
    (readArgs gC2b .AS_IS 10).2.boolCells = [false] :=
  ⟨rfl, rfl⟩

/-- Claim C3 (confirmed). End-to-end STRICT run: booleans `-a` (default
false), integer `-n` (default 0), system vector
`["prog", "-a", "-n", "5", "file.txt"]`: no invalid flags, the boolean
becomes true, the integer becomes 5, and the options are
`["file.txt"]`. -/
theorem C3_end_to_end :
    (readArgs gC3 .STRICT 20).1 = .ok [] ∧
    (readArgs gC3 .STRICT 20).2.boolCells = [true] ∧
    (readArgs gC3 .STRICT 20).2.intCells = [5] ∧
    getOptions (readArgs gC3 .STRICT 20).2 = ["file.txt"] :=
  ⟨rfl, rfl, rfl, rfl⟩

/-- Claim C4 (confirmed). With booleans `-a`, `-b`, `-c` and caller-style
vector `["-abc"]`, the STRICT pass sets all three cells true with no
invalid flags; and the first iteration expands the cluster exactly as
claimed: the current position is rewritten to marker + final character
(`"-c"`, in place at pointer 0) and each interior character is appended
as a separate two-character token (`"-a"`, `"-b"`) after the current end
of the vector, with the index left in place. -/
theorem C4_cluster :
    ((readArgs gC4 .STRICT 10).1 = .ok [] ∧
     (readArgs gC4 .STRICT 10).2.boolCells = [true, true, true]) ∧
    strictStep gC4.reg stC4 =
      .next { stC4 with heap := ["-c", "-a", "-b"], argv := [0, 1, 2] } :=
  ⟨⟨rfl, rfl⟩, rfl⟩

/-- Claim C5 (counterexample). The claim says none of the caller's token
strings is ever mutated. Concretely, for the cluster vector `["-abc"]`
the caller sees `["-abc"]` before the pass and `["-c"]` after it: the
`strcpy` through the copied pointer rewrote the caller-owned buffer. -/
theorem C5_counterexample :
    callerView gC5 = some ["-abc"] ∧
    (readArgs gC5 .STRICT 10).1 = .ok [] ∧
    callerView (readArgs gC5 .STRICT 10).2 = some ["-c"] :=
  ⟨rfl, rfl, rfl⟩

/-- Claim C5 (amended). For every parser state and either dialect, a pass
that returns normally restores the parser's reference to the original
vector (the pointer array the caller supplied); however, cluster
expansion rewrites the clustered token's string buffer in place through
the copied pointer, so the caller-visible token at the cluster position
becomes marker + final character (concretely, `["-abc"]` is seen as
`["-c"]` afterwards, while the reference is still the original). -/
theorem C5_amended :
    (∀ (g : GetOptState) (b : BEHAVIOUR) (fuel : Nat) (r : List String) (g2 : GetOptState),
        readArgs g b fuel = (.ok r, g2) → g2.origArgv = g.origArgv) ∧
    ((readArgs gC5 .STRICT 10).2.origArgv = gC5.origArgv ∧
     callerView (readArgs gC5 .STRICT 10).2 = some ["-c"]) := by
  constructor
  · intro g b fuel r g2 h
    cases hO : g.origArgv with
    | none => simp [readArgs, hO] at h
    | some ptrs =>
      simp only [readArgs, hO] at h
      cases hr : runLoop (stepOf b) g.reg fuel (g.mkLoopSt ptrs) with
      | ok st =>
        rw [hr] at h
        simp only [Prod.mk.injEq] at h
        rw [← h.2]
        simp [GetOptState.absorb, hO]
      | error p =>
        obtain ⟨e, st⟩ := p
        rw [hr] at h
        simp [Prod.mk.injEq] at h
  · exact ⟨rfl, rfl⟩

/-- Witness for the amended frame claim, applying it to the concrete
cluster run. -/
theorem C5_amended_witness : (readArgs gC5 .STRICT 10).2.origArgv = gC5.origArgv :=
  C5_amended.1 gC5 .STRICT 10 [] (readArgs gC5 .STRICT 10).2 rfl

/-- Claim C6 (counterexample). The claim says a later registration of an
existing alias overwrites the lookup entry. After registering `-a` as a
boolean and then again as an integer (default 7), the main lookup still
resolves `-a` to BOOL (not INT) and to the first storage cell, and a
STRICT parse of `["prog", "-a"]` takes the boolean branch: the boolean
becomes true, the integer stays 7, and nothing is reported invalid
(had the alias resolved to INT, `-a` as the final token would have been
reported as an invalid flag). -/
theorem C6_counterexample :
    mapFind "-a" gC6.reg.main_lookup = some TYPE.BOOL ∧
    mapFind "-a" gC6.reg.main_lookup ≠ some TYPE.INT ∧
    mapFind "-a" gC6.reg.bool_lookup = some 0 ∧
    (readArgs (gC6.initArgv ["prog", "-a"] true) .STRICT 10).1 = .ok [] ∧
    (readArgs (gC6.initArgv ["prog", "-a"] true) .STRICT 10).2.boolCells = [true] ∧
    (readArgs (gC6.initArgv ["prog", "-a"] true) .STRICT 10).2.intCells = [7] := by
  refine ⟨rfl, ?_, rfl, rfl, rfl, rfl⟩
  decide

/-- Claim C6 (amended). Re-registering an alias does NOT overwrite the
registry: `std::map::insert` keeps the existing element, so for every
sorted registry state, an alias already present in the main lookup keeps
its original type tag across any later registration call (of any of the
four types), and an alias already present in the boolean lookup keeps
its original storage cell across a later boolean registration; parsing
therefore resolves the alias to the FIRST registration. -/
theorem C6_no_overwrite (g : GetOptState) (name a : String)
    (hs : sortedKeys g.reg.main_lookup = true)
    (hsb : sortedKeys g.reg.bool_lookup = true) :
    (∀ ty, mapFind a g.reg.main_lookup = some ty →
       ∀ (db : Bool) (di : Int) (df ds : String),
         mapFind a (flagBoolean g name db).1.reg.main_lookup = some ty ∧
         mapFind a (flagInt g name di).1.reg.main_lookup = some ty ∧
         mapFind a (flagFloating g name df).1.reg.main_lookup = some ty ∧
         mapFind a (flagString g name ds).1.reg.main_lookup = some ty) ∧
    (∀ cid, mapFind a g.reg.bool_lookup = some cid →
       ∀ db : Bool, mapFind a (flagBoolean g name db).1.reg.bool_lookup = some cid) := by
  constructor
  · intro ty hf db di df ds
    refine ⟨?_, ?_, ?_, ?_⟩ <;>
      simp only [flagBoolean, flagInt, flagFloating, flagString] <;>
      exact mapFind_foldl_mapInsert a _ (splitFlags name) g.reg.main_lookup hs ty hf
  · intro cid hf db
    simp only [flagBoolean]
    exact mapFind_foldl_mapInsert a _ (splitFlags name) g.reg.bool_lookup hsb cid hf

/-- Witness for the no-overwrite theorem: after registering `-a` as a
boolean, registering it again as an integer leaves the main lookup entry
at BOOL. -/
theorem C6_no_overwrite_witness :
    mapFind "-a" (flagInt gC6r "-a" 7).1.reg.main_lookup = some TYPE.BOOL :=
  (((C6_no_overwrite gC6r "-a" "-a" (by decide) (by decide)).1 TYPE.BOOL (by decide)
      false 7 "0" "").2).1

/-- Claim C7 (counterexample). The claim says a token whose flag-only part
is unregistered is treated as flag-like iff its first character matches
the first character of ANY registered spelling. With `-a` and `/b` both
registered, the token `/x` shares its first character with the
registered spelling `/b`, yet the pass appends it to the options and
reports nothing invalid, because the code only compares against
`main_lookup.begin()` (the least key, `-a`). -/
theorem C7_counterexample :
    (readArgs gC7 .STRICT 10).1 = .ok [] ∧
    getOptions (readArgs gC7 .STRICT 10).2 = ["/x"] ∧
    gC7.reg.main_lookup.head? = some ("-a", TYPE.BOOL) ∧
    mapFind "/b" gC7.reg.main_lookup = some TYPE.BOOL :=
  ⟨rfl, rfl, rfl, rfl⟩

/-- Claim C7 (amended). For every token whose flag-only part is absent
from the registry (in either dialect, since the not-found branch is the
same code): the token is treated as flag-like iff its first character
equals the first character of the LEAST registered spelling
(`main_lookup.begin()->first[0]`), not of any spelling. On a mismatch it
is appended to the options and the index advances by one; on a match it
is either recorded as an unrecognized flag (index + 1) when its
two-character head is unknown, or expanded as a cluster (options,
invalid flags and index all unchanged) otherwise. -/
theorem C7_classification (R : Registry) (st : LoopSt) (flag k0 : String) (v0 : TYPE)
    (hlt : st.i < st.argv.length) (hread : readTok st st.i = some flag)
    (hnf : mapFind (takeBeforeEq flag) R.main_lookup = none)
    (hhead : R.main_lookup.head? = some (k0, v0)) :
    (strictStep R st = notFoundStep R st flag ∧
     asisStep R st = notFoundStep R st flag) ∧
    (strAt0 k0 ≠ strAt0 flag →
       notFoundStep R st flag =
         .next { st with options := st.options ++ [flag], i := st.i + 1 }) ∧
    (strAt0 k0 = strAt0 flag → mapFind (firstTwo flag) R.main_lookup = none →
       notFoundStep R st flag =
         .next { st with invalid := st.invalid ++ [flag], i := st.i + 1 }) ∧
    (strAt0 k0 = strAt0 flag → mapFind (firstTwo flag) R.main_lookup ≠ none →
       notFoundStep R st flag = .next (clusterExpand st flag) ∧
       (clusterExpand st flag).options = st.options ∧
       (clusterExpand st flag).invalid = st.invalid ∧
       (clusterExpand st flag).i = st.i) := by
  refine ⟨⟨?_, ?_⟩, ?_, ?_, ?_⟩
  · rw [strictStep_eq_dispatch R st flag hlt hread]
    simp [strictDispatch, hnf]
  · rw [asisStep_eq_dispatch R st flag hlt hread]
    simp [asisDispatch, hnf]
  · intro hne
    simp [notFoundStep, hhead, hne]
  · intro heq hft
    simp [notFoundStep, hhead, heq, hft]
  · intro heq hft
    refine ⟨?_, rfl, rfl, rfl⟩
    simp [notFoundStep, hhead, heq, hft]

/-- Witness for the classification theorem: with only `-a` registered, the
unregistered token `zzz` is classified as an option. -/
theorem C7_classification_witness :
    notFoundStep regC7w stC7w "zzz" =
      .next { stC7w with options := stC7w.options ++ ["zzz"], i := stC7w.i + 1 } :=
  (C7_classification regC7w stC7w "zzz" "-a" TYPE.BOOL (by decide) (by decide)
      (by decide) (by decide)).2.1 (by decide)

/-- Claim C8 (confirmed). In the STRICT dialect, a registered integer (or
float) flag in long form (token starts with "--") without an equals sign
makes exactly this step: the whole token is appended to the invalid-flags
result and the index advances by one, with every storage cell (in
particular the bound numeric cell) left untouched, as the resulting loop
state differs from the input only in `invalid` and `i`. -/
theorem C8_numeric_long_requires_eq (R : Registry) (st : LoopSt) (flag : String)
    (hlt : st.i < st.argv.length) (hread : readTok st st.i = some flag)
    (hdd : startsWithDD flag = true) (hne : hasEq flag = false) :
    (∀ id, mapFind (takeBeforeEq flag) R.main_lookup = some TYPE.INT →
       mapFind (takeBeforeEq flag) R.int_lookup = some id →
       strictStep R st = .next { st with invalid := st.invalid ++ [flag], i := st.i + 1 }) ∧
    (∀ id, mapFind (takeBeforeEq flag) R.main_lookup = some TYPE.FLOAT →
       mapFind (takeBeforeEq flag) R.float_lookup = some id →
       strictStep R st = .next { st with invalid := st.invalid ++ [flag], i := st.i + 1 }) := by
  constructor <;> intro id hty hid <;>
    rw [strictStep_eq_dispatch R st flag hlt hread] <;>
    simp [strictDispatch, hty, hid, hdd, hne]

/-- Witness for the numeric long-form theorem: `--count` registered as an
integer, the single token `--count` is reported invalid and the cell
keeps its default. -/
theorem C8_numeric_long_witness :
    strictStep regC8w stC8w =
      .next { stC8w with invalid := stC8w.invalid ++ ["--count"], i := stC8w.i + 1 } :=
  (C8_numeric_long_requires_eq regC8w stC8w "--count" (by decide) (by decide)
      (by decide) (by decide)).1 0 (by decide) (by decide)

/-- Claim C9 (confirmed). For every parser state, dialect and fuel, the
parse fails with the `no_argv` error iff it runs before an argument
vector has been supplied (`_argv` still null), and in that case the
whole state — registry, every storage cell, and the options accumulator
— is returned unchanged: nothing is parsed. -/
theorem C9_no_argv (g : GetOptState) (b : BEHAVIOUR) (fuel : Nat) :
    ((readArgs g b fuel).1 = .error PErr.noArgv ↔ g.origArgv = none) ∧
    (g.origArgv = none → readArgs g b fuel = (.error PErr.noArgv, g)) := by
  cases hO : g.origArgv with
  | none =>
    refine ⟨⟨fun _ => rfl, fun _ => ?_⟩, fun _ => ?_⟩ <;> simp [readArgs, hO]
  | some ptrs =>
    refine ⟨⟨fun h => ?_, fun h => Option.noConfusion h⟩,
            fun h => Option.noConfusion h⟩
    exfalso
    simp only [readArgs, hO] at h
    cases hr : runLoop (stepOf b) g.reg fuel (g.mkLoopSt ptrs) with
    | ok st => rw [hr] at h; simp at h
    | error p =>
      obtain ⟨e, st⟩ := p
      rw [hr] at h
      cases e <;> simp [LErr.toPErr] at h

/-- Witness for the configuration-error theorem: a freshly constructed
parser (no argument vector yet) fails with `no_argv` and is unchanged. -/
theorem C9_no_argv_witness : readArgs initState .STRICT 0 = (.error PErr.noArgv, initState) :=
  (C9_no_argv initState .STRICT 0).2 rfl

/-- Claim C10 (code divergence). The claim says every raw read of the
argument vector is in bounds. With boolean `-a` registered and the
caller-style single-token vector `["-a"]`, the STRICT pass reads
`_argv[1]` while `_argc = 1`: in the model the total read returns `none`
and the pass ends in the out-of-range error, so the out-of-range branch
IS reachable — precisely when a registered boolean flag parsed without
an equals sign is the final token of a caller-style vector. -/
theorem C10_out_of_range :
    (readArgs gC10 .STRICT 10).1 = .error PErr.outOfRange ∧
    readTok (gC10.mkLoopSt [0]) 1 = none :=
  ⟨rfl, rfl⟩

end GetOptCpp
